import Mathlib

/-!
# Verification of the mindrian-ui core logic

Shallow embedding of the two algorithmic components of the repository:

* `detectAnomalies` (src/lib/ai-service.ts): statistical outlier detection
  over opportunity records.  JavaScript numbers are modelled by exact
  rationals; the source's comparison `Math.abs(score - mean) > 2 * stdDev`
  with `stdDev = Math.sqrt(variance)` is embedded by the equivalent
  square-free test `(score - mean)^2 > 4 * variance` so the definition stays
  computable, and the equivalence with the square-root form over ℝ is proved
  in `abs_sub_gt_two_sqrt_iff` and used in the claim theorems.

* `parseLarryResponse` (src/components/LarrySessionPanel.tsx): the
  annotated-reply protocol parser.  Strings are modelled as `List Char`;
  the JavaScript regular-expression searches are embedded as explicit
  leftmost-match scanners (`firstMatch` over all suffixes), and
  `String.prototype.split` / `Array.prototype.join` as `splitDashes` /
  `joinDashes`.  The ambient clock consulted by `new Date()` is passed in
  explicitly as a `now : Nat` parameter.
-/

/-! ## Outlier detector (src/lib/ai-service.ts, detectAnomalies) -/

/-- An opportunity record as consumed by the detector: the score is optional
(`o.csio_score || 0` substitutes `0`), the remaining descriptive fields are
opaque to the detector and only passed through. -/
structure Opportunity where
  csio_score : Option ℚ
  name : String
  status : String
deriving DecidableEq

/-- The `anomalyType` tag attached to each detected anomaly. -/
inductive AnomalyType where
  | high_performer
  | needs_attention
deriving DecidableEq

/-- A detector output row: the source record spread unchanged
(`{...o}`) plus the added `anomalyType` field. -/
structure AnomalyRecord where
  record : Opportunity
  anomalyType : AnomalyType
deriving DecidableEq

/-- Score extraction `o.csio_score || 0`. -/
def scoreOf (o : Opportunity) : ℚ :=
  o.csio_score.getD 0

/-- Arithmetic mean of the extracted scores
(`scores.reduce((a, b) => a + b, 0) / scores.length`). -/
def meanScore (l : List Opportunity) : ℚ :=
  (l.map scoreOf).sum / (l.length : ℚ)

/-- Population variance of the extracted scores: the radicand of
`Math.sqrt(scores.reduce((sum, s) => sum + Math.pow(s - mean, 2), 0) / scores.length)`. -/
def varianceScore (l : List Opportunity) : ℚ :=
  ((l.map scoreOf).map (fun s => (s - meanScore l) ^ 2)).sum / (l.length : ℚ)

/-- The detector: keep the records with `|score - mean| > 2 * stdDev`
(embedded as the equivalent `(score - mean)^2 > 4 * variance`), and tag each
kept record `high_performer` when its score exceeds the mean and
`needs_attention` otherwise. -/
def detectAnomalies (l : List Opportunity) : List AnomalyRecord :=
  (l.filter fun o => decide (4 * varianceScore l < (scoreOf o - meanScore l) ^ 2)).map
    fun o =>
      { record := o
        anomalyType :=
          if meanScore l < scoreOf o then AnomalyType.high_performer
          else AnomalyType.needs_attention }

/-! ## Annotated-reply parser (src/components/LarrySessionPanel.tsx) -/

/-- Whitespace as consumed by JavaScript trimming and the regex class. -/
def isJsWs (c : Char) : Bool :=
  c == ' ' || c == '\t' || c == '\n' || c == '\r' || c == '\x0b' || c == '\x0c'

/-- JavaScript `String.prototype.trim` on both ends. -/
def jsTrim (s : List Char) : List Char :=
  ((s.dropWhile isJsWs).reverse.dropWhile isJsWs).reverse

/-- Strip an exact literal from the front, returning the remainder. -/
def stripLit : List Char → List Char → Option (List Char)
  | [], s => some s
  | _ :: _, [] => none
  | l :: ls, c :: cs => if c = l then stripLit ls cs else none

/-- Leftmost-match search: try the matcher at every suffix, left to right,
mirroring how a JavaScript regular expression finds its first match. -/
def firstMatch {α : Type} (f : List Char → Option α) : List Char → Option α
  | [] => f []
  | c :: cs =>
    match f (c :: cs) with
    | some a => some a
    | none => firstMatch f cs

/-- JavaScript `String.prototype.includes`. -/
def containsSub (pat : List Char) : List Char → Bool
  | [] => (stripLit pat []).isSome
  | c :: cs => (stripLit pat (c :: cs)).isSome || containsSub pat cs

/-- Numeric value of a run of decimal digit characters (`parseInt` applied
to a `\d+` capture). -/
def digitsVal (ds : List Char) : Nat :=
  ds.foldl (fun a c => 10 * a + (c.toNat - 48)) 0

/-- Fuel-driven decimal printer; with fuel above `n` it yields the decimal
digits of `n`, most significant first. -/
def natToDecAux : Nat → Nat → List Char
  | 0, _ => []
  | fuel + 1, n =>
    if n < 10 then [Nat.digitChar n]
    else natToDecAux fuel (n / 10) ++ [Nat.digitChar (n % 10)]

/-- Decimal representation of a natural number, as produced by JavaScript
template interpolation of an array index. -/
def natToDec (n : Nat) : List Char :=
  natToDecAux (n + 1) n

/-- The delimiter of the reply protocol. -/
def dashes : List Char := ['-', '-', '-']

/-- Prepend a character to the first piece of a split result. -/
def consHead (c : Char) : List (List Char) → List (List Char)
  | [] => [[c]]
  | h :: t => (c :: h) :: t

/-- JavaScript `response.split("---")`: non-overlapping occurrences are
consumed left to right. -/
def splitDashes : List Char → List (List Char)
  | [] => [[]]
  | [c] => [[c]]
  | [c1, c2] => [[c1, c2]]
  | c1 :: c2 :: c3 :: rest =>
    if c1 = '-' ∧ c2 = '-' ∧ c3 = '-' then [] :: splitDashes rest
    else consHead c1 (splitDashes (c2 :: c3 :: rest))

/-- JavaScript `parts.join("---")`. -/
def joinDashes : List (List Char) → List Char
  | [] => []
  | [p] => p
  | p :: q :: t => p ++ dashes ++ joinDashes (q :: t)

/-- JavaScript `block.split("\n")`. -/
def splitNl : List Char → List (List Char)
  | [] => [[]]
  | c :: cs => if c = '\n' then [] :: splitNl cs else consHead c (splitNl cs)

/-- Label of the clarity-percentage pattern. -/
def clarityLit : List Char := "Problem Clarity:".data

/-- Label of the what-dimension pattern. -/
def whatLit : List Char := "What is the problem:".data

/-- Label of the who-dimension pattern. -/
def whoLit : List Char := "Who has this problem:".data

/-- Label of the success-dimension pattern. -/
def successLit : List Char := "What is success:".data

/-- Label of the questions counter pattern. -/
def questionsLit : List Char := "Questions asked:".data

/-- Label of the parked-ideas counter pattern. -/
def parkedCountLit : List Char := "Parked ideas:".data

/-- Label of the assumptions counter pattern. -/
def challengedLit : List Char := "Assumptions challenged:".data

/-- Marker opening the parked-ideas block. -/
def parkedMarker : List Char := "**Parked Ideas:**".data

/-- The literal scanned for by the "None" suppression check. -/
def noneLit : List Char := "None".data

/-- One candidate position of `lit` followed by `\s*(\d+)%` (the shape of
the regex `Problem Clarity:\s*(\d+)%`): maximal whitespace run, then a
non-empty maximal digit run, then a literal percent sign. -/
def matchNumPct (lit : List Char) (s : List Char) : Option Nat :=
  match stripLit lit s with
  | none => none
  | some r =>
    let r2 := r.dropWhile isJsWs
    let ds := r2.takeWhile Char.isDigit
    if ds.isEmpty then none
    else
      match r2.dropWhile Char.isDigit with
      | '%' :: _ => some (digitsVal ds)
      | _ => none

/-- One candidate position of `lit` followed by `\s*(\d+)` (the shape of
the three counter regexes). -/
def matchNum (lit : List Char) (s : List Char) : Option Nat :=
  match stripLit lit s with
  | none => none
  | some r =>
    let ds := (r.dropWhile isJsWs).takeWhile Char.isDigit
    if ds.isEmpty then none else some (digitsVal ds)

/-- One candidate position of `lit` followed by `\s*\[([^\]]+)\]` (the shape
of the three clarity-dimension regexes): the capture is the maximal
non-empty run of characters other than a closing bracket, and the closing
bracket must follow. -/
def matchBracket (lit : List Char) (s : List Char) : Option (List Char) :=
  match stripLit lit s with
  | none => none
  | some r =>
    match r.dropWhile isJsWs with
    | '[' :: r2 =>
      let txt := r2.takeWhile (fun c => c != ']')
      if txt.isEmpty then none
      else
        match r2.dropWhile (fun c => c != ']') with
        | ']' :: _ => some txt
        | _ => none
    | _ => none

/-- One candidate position of `\*\*Parked Ideas:\*\*([^*]+)`: the capture is
the maximal non-empty run of characters other than an asterisk following
the marker. -/
def matchParked (s : List Char) : Option (List Char) :=
  match stripLit parkedMarker s with
  | none => none
  | some r =>
    let txt := r.takeWhile (fun c => c != '*')
    if txt.isEmpty then none else some txt

/-- The metadata section `parts.slice(1).join("---")`, present exactly when
the split produced more than one part. -/
def metadataOf (s : List Char) : Option (List Char) :=
  let parts := splitDashes s
  if parts.length > 1 then some (joinDashes parts.tail) else none

/-- The clarity state extracted by the parser. -/
structure ProblemClarity where
  percentage : Nat
  what : String
  who : String
  success : String
deriving DecidableEq

/-- The session counters extracted by the parser. -/
structure SessionStats where
  questionsAsked : Nat
  parkedIdeas : Nat
  assumptionsChallenged : Nat
deriving DecidableEq

/-- One parked idea; the timestamp models the `new Date()` taken at parse
time. -/
structure ParkedIdea where
  id : String
  text : String
  timestamp : Nat
deriving DecidableEq

/-- The record returned by `parseLarryResponse`. -/
structure ParsedSession where
  message : String
  clarity : ProblemClarity
  stats : SessionStats
  parkedIdeas : List ParkedIdea
deriving DecidableEq

/-- Default clarity values used when patterns are absent. -/
def defaultClarity : ProblemClarity :=
  { percentage := 0
    what := "Not yet clear"
    who := "Not yet identified"
    success := "Not yet defined" }

/-- Default counters. -/
def defaultStats : SessionStats :=
  { questionsAsked := 0, parkedIdeas := 0, assumptionsChallenged := 0 }

/-- The filter `line.trim().startsWith("-")`. -/
def isDashLine (l : List Char) : Bool :=
  match jsTrim l with
  | '-' :: _ => true
  | _ => false

/-- JavaScript `idea.replace(/^-\s*/, "")`: the anchored pattern only fires
when the dash is the very first character of the raw line. -/
def stripDashWs : List Char → List Char
  | '-' :: r => r.dropWhile isJsWs
  | l => l

/-- The parked-ideas block handler: capture the block, suppress it entirely
when it contains "None", otherwise turn each line whose trimmed content
starts with a dash into one idea. -/
def extractParkedIdeas (meta : List Char) (now : Nat) : List ParkedIdea :=
  match firstMatch matchParked meta with
  | none => []
  | some block =>
    if containsSub noneLit block then []
    else
      ((splitNl block).filter isDashLine).enum.map fun p =>
        { id := ("idea-".data ++ natToDec p.1).asString
          text := (jsTrim (stripDashWs p.2)).asString
          timestamp := now }

/-- The annotated-reply parser, with the ambient clock passed explicitly. -/
def parseLarryResponse (response : String) (now : Nat) : ParsedSession :=
  let parts := splitDashes response.data
  let message := (jsTrim (parts.headD [])).asString
  match metadataOf response.data with
  | none =>
    { message := message
      clarity := defaultClarity
      stats := defaultStats
      parkedIdeas := [] }
  | some meta =>
    { message := message
      clarity :=
        { percentage := (firstMatch (matchNumPct clarityLit) meta).getD 0
          what := ((firstMatch (matchBracket whatLit) meta).map List.asString).getD
            "Not yet clear"
          who := ((firstMatch (matchBracket whoLit) meta).map List.asString).getD
            "Not yet identified"
          success := ((firstMatch (matchBracket successLit) meta).map List.asString).getD
            "Not yet defined" }
      stats :=
        { questionsAsked := (firstMatch (matchNum questionsLit) meta).getD 0
          parkedIdeas := (firstMatch (matchNum parkedCountLit) meta).getD 0
          assumptionsChallenged := (firstMatch (matchNum challengedLit) meta).getD 0 }
      parkedIdeas := extractParkedIdeas meta now }

/-- Specification-side reading of the wire format: the text before the first
occurrence of `"---"` (the whole string when there is none). -/
def beforeDelim : List Char → List Char
  | [] => []
  | [c] => [c]
  | [c1, c2] => [c1, c2]
  | c1 :: c2 :: c3 :: rest =>
    if c1 = '-' ∧ c2 = '-' ∧ c3 = '-' then []
    else c1 :: beforeDelim (c2 :: c3 :: rest)

/-- Specification-side reading of the wire format: the text after the first
occurrence of `"---"`, or `none` when the delimiter does not occur. -/
def afterDelim : List Char → Option (List Char)
  | [] => none
  | [_] => none
  | [_, _] => none
  | c1 :: c2 :: c3 :: rest =>
    if c1 = '-' ∧ c2 = '-' ∧ c3 = '-' then some rest
    else afterDelim (c2 :: c3 :: rest)


/-! ### Detector lemmas -/

theorem varianceScore_nonneg (l : List Opportunity) : 0 ≤ varianceScore l := by
  unfold varianceScore
  apply div_nonneg
  · apply List.sum_nonneg
    intro x hx
    rcases List.mem_map.mp hx with ⟨s, _, rfl⟩
    positivity
  · positivity

/-- The square-root-free anomaly test used in `detectAnomalies` agrees with
the source's `Math.abs(score - mean) > 2 * Math.sqrt(variance)` over ℝ. -/
theorem abs_sub_gt_two_sqrt_iff (x v : ℝ) (hv : 0 ≤ v) :
    2 * Real.sqrt v < |x| ↔ 4 * v < x ^ 2 := by
  have h4 : (2 : ℝ) * Real.sqrt v = Real.sqrt (4 * v) := by
    rw [show (4 : ℝ) * v = 2 ^ 2 * v by ring, Real.sqrt_mul (by positivity),
      Real.sqrt_sq (by norm_num)]
  rcases eq_or_ne x 0 with rfl | hx
  · constructor
    · intro h
      exact absurd h (by simp [Real.sqrt_nonneg, h4])
    · intro h
      nlinarith
  · have habs : 0 < |x| := abs_pos.mpr hx
    rw [h4, Real.sqrt_lt' habs, sq_abs]

theorem meanScore_of_const (l : List Opportunity) (c : ℚ) (h : l ≠ [])
    (hc : l.map scoreOf = List.replicate l.length c) : meanScore l = c := by
  have hn : (l.length : ℚ) ≠ 0 := by
    simpa using h
  unfold meanScore
  rw [hc, List.sum_replicate, nsmul_eq_mul]
  field_simp

/-- C1: for a non-empty collection, a tagged record is in the detector output
iff the record occurs in the input, its extracted score (0 when absent)
deviates from the arithmetic mean by strictly more than twice the population
standard deviation `Real.sqrt (variance)` (denominator `N`), and its tag is
`high_performer` exactly when the score exceeds the mean and
`needs_attention` otherwise. -/
theorem detectAnomalies_membership_spec (l : List Opportunity) (h : l ≠ [])
    (o : Opportunity) (t : AnomalyType) :
    AnomalyRecord.mk o t ∈ detectAnomalies l ↔
      (o ∈ l ∧
        2 * Real.sqrt ((varianceScore l : ℝ)) < |((scoreOf o : ℝ)) - ((meanScore l : ℝ))| ∧
        t = (if meanScore l < scoreOf o then AnomalyType.high_performer
          else AnomalyType.needs_attention)) := by
  have hv : (0 : ℝ) ≤ (varianceScore l : ℝ) := by
    exact_mod_cast varianceScore_nonneg l
  simp only [detectAnomalies, List.mem_map, List.mem_filter, AnomalyRecord.mk.injEq,
    decide_eq_true_eq]
  constructor
  · rintro ⟨a, ⟨hal, hcond⟩, rfl, rfl⟩
    refine ⟨hal, ?_, rfl⟩
    rw [show ((scoreOf a : ℝ)) - ((meanScore l : ℝ)) = (((scoreOf a - meanScore l : ℚ) : ℝ)) by
      push_cast; ring]
    rw [abs_sub_gt_two_sqrt_iff _ _ hv]
    exact_mod_cast hcond
  · rintro ⟨hol, hineq, rfl⟩
    refine ⟨o, ⟨hol, ?_⟩, rfl, rfl⟩
    rw [show ((scoreOf o : ℝ)) - ((meanScore l : ℝ)) = (((scoreOf o - meanScore l : ℚ) : ℝ)) by
      push_cast; ring] at hineq
    rw [abs_sub_gt_two_sqrt_iff _ _ hv] at hineq
    exact_mod_cast hineq

theorem detectAnomalies_membership_spec_witness :
    ([(⟨some 1, "a", "exploring"⟩ : Opportunity), ⟨some 0, "b", "exploring"⟩] ≠ []) ∧
      (AnomalyRecord.mk ⟨some 1, "a", "exploring"⟩ AnomalyType.high_performer ∈
          detectAnomalies [⟨some 1, "a", "exploring"⟩, ⟨some 0, "b", "exploring"⟩] ↔
        ((⟨some 1, "a", "exploring"⟩ : Opportunity) ∈
            [(⟨some 1, "a", "exploring"⟩ : Opportunity), ⟨some 0, "b", "exploring"⟩] ∧
          2 * Real.sqrt
              ((varianceScore [⟨some 1, "a", "exploring"⟩, ⟨some 0, "b", "exploring"⟩] : ℝ)) <
            |((scoreOf (⟨some 1, "a", "exploring"⟩ : Opportunity) : ℝ)) -
              ((meanScore [⟨some 1, "a", "exploring"⟩, ⟨some 0, "b", "exploring"⟩] : ℝ))| ∧
          AnomalyType.high_performer =
            (if meanScore [⟨some 1, "a", "exploring"⟩, ⟨some 0, "b", "exploring"⟩] <
                scoreOf (⟨some 1, "a", "exploring"⟩ : Opportunity) then
              AnomalyType.high_performer
            else AnomalyType.needs_attention))) :=
  ⟨by decide, detectAnomalies_membership_spec _ (by decide) _ _⟩

/-- C6: the detector output is a subsequence of its input in the original
order, and every returned row carries one of the input records unchanged in
its `record` component. -/
theorem detectAnomalies_sublist (l : List Opportunity) :
    ((detectAnomalies l).map AnomalyRecord.record).Sublist l ∧
      ∀ r ∈ detectAnomalies l, r.record ∈ l := by
  have hs : ((detectAnomalies l).map AnomalyRecord.record).Sublist l := by
    unfold detectAnomalies
    rw [List.map_map]
    show (List.map (fun o => o) _).Sublist l
    rw [List.map_id']
    exact List.filter_sublist l
  exact ⟨hs, fun r hr => hs.subset (List.mem_map_of_mem AnomalyRecord.record hr)⟩

/-- C7: when all extracted scores are identical the variance is zero and no
record passes the strict threshold, so the detector returns the empty list. -/
theorem detectAnomalies_const_empty (l : List Opportunity) (c : ℚ) (h : l ≠ [])
    (hc : l.map scoreOf = List.replicate l.length c) :
    detectAnomalies l = [] := by
  have hmean := meanScore_of_const l c h hc
  have hvar := varianceScore_nonneg l
  have hsc : ∀ o ∈ l, scoreOf o = c := by
    intro o ho
    have hmem : scoreOf o ∈ l.map scoreOf := List.mem_map_of_mem _ ho
    rw [hc] at hmem
    exact List.eq_of_mem_replicate hmem
  unfold detectAnomalies
  rw [List.filter_eq_nil_iff.mpr, List.map_nil]
  intro o ho
  simp only [decide_eq_true_eq, not_lt, hsc o ho, hmean]
  nlinarith [hvar]

theorem detectAnomalies_const_empty_witness :
    ([(⟨some 1, "a", "validated"⟩ : Opportunity), ⟨some 1, "b", "validated"⟩] ≠ []) ∧
      [(⟨some 1, "a", "validated"⟩ : Opportunity), ⟨some 1, "b", "validated"⟩].map scoreOf =
        List.replicate
          [(⟨some 1, "a", "validated"⟩ : Opportunity), ⟨some 1, "b", "validated"⟩].length 1 ∧
      detectAnomalies [⟨some 1, "a", "validated"⟩, ⟨some 1, "b", "validated"⟩] = [] :=
  ⟨by decide, by decide, detectAnomalies_const_empty _ 1 (by decide) (by decide)⟩

/-- C8: on the empty collection the detector returns the empty list: the
filter over an empty list is empty, so no statistics reach the output. -/
theorem detectAnomalies_empty : detectAnomalies [] = [] := by
  decide

/-! ### Split/join lemmas -/

theorem consHead_ne_nil (c : Char) (L : List (List Char)) : consHead c L ≠ [] := by
  cases L <;> simp [consHead]

theorem consHead_headD (c : Char) (L : List (List Char)) (hL : L ≠ []) :
    (consHead c L).headD [] = c :: L.headD [] := by
  cases L with
  | nil => exact absurd rfl hL
  | cons h t => simp [consHead]

theorem joinDashes_consHead (c : Char) (L : List (List Char)) (hL : L ≠ []) :
    joinDashes (consHead c L) = c :: joinDashes L := by
  cases L with
  | nil => exact absurd rfl hL
  | cons h t => cases t <;> simp [consHead, joinDashes]

theorem splitDashes_ne_nil (s : List Char) : splitDashes s ≠ [] := by
  induction s using splitDashes.induct with
  | case1 => simp [splitDashes]
  | case2 c => simp [splitDashes]
  | case3 c1 c2 => simp [splitDashes]
  | case4 c1 c2 c3 rest hcond ih => simp [splitDashes, hcond]
  | case5 c1 c2 c3 rest hcond ih =>
    simp only [splitDashes, if_neg hcond]
    exact consHead_ne_nil _ _

theorem joinDashes_splitDashes (s : List Char) : joinDashes (splitDashes s) = s := by
  induction s using splitDashes.induct with
  | case1 => rfl
  | case2 c => rfl
  | case3 c1 c2 => rfl
  | case4 c1 c2 c3 rest hcond ih =>
    simp only [splitDashes, if_pos hcond]
    cases hsp : splitDashes rest with
    | nil => exact absurd hsp (splitDashes_ne_nil rest)
    | cons h t =>
      rw [hsp] at ih
      obtain ⟨rfl, rfl, rfl⟩ := hcond
      simp [joinDashes, dashes, ih]
  | case5 c1 c2 c3 rest hcond ih =>
    simp only [splitDashes, if_neg hcond]
    rw [joinDashes_consHead _ _ (splitDashes_ne_nil _), ih]

theorem beforeDelim_of_afterDelim_none (s : List Char) (h : afterDelim s = none) :
    beforeDelim s = s := by
  induction s using beforeDelim.induct with
  | case1 => rfl
  | case2 c => rfl
  | case3 c1 c2 => rfl
  | case4 c1 c2 c3 rest hcond =>
    rw [afterDelim, if_pos hcond] at h
    exact absurd h (by simp)
  | case5 c1 c2 c3 rest hcond ih =>
    rw [afterDelim, if_neg hcond] at h
    rw [beforeDelim, if_neg hcond, ih h]

theorem splitDashes_of_afterDelim_none (s : List Char) (h : afterDelim s = none) :
    splitDashes s = [s] := by
  induction s using splitDashes.induct with
  | case1 => rfl
  | case2 c => rfl
  | case3 c1 c2 => rfl
  | case4 c1 c2 c3 rest hcond ih =>
    rw [afterDelim, if_pos hcond] at h
    exact absurd h (by simp)
  | case5 c1 c2 c3 rest hcond ih =>
    rw [afterDelim, if_neg hcond] at h
    rw [splitDashes, if_neg hcond, ih h]
    rfl

theorem splitDashes_of_afterDelim_some (s r : List Char) (h : afterDelim s = some r) :
    splitDashes s = beforeDelim s :: splitDashes r := by
  induction s using splitDashes.induct with
  | case1 => simp [afterDelim] at h
  | case2 c => simp [afterDelim] at h
  | case3 c1 c2 => simp [afterDelim] at h
  | case4 c1 c2 c3 rest hcond ih =>
    rw [afterDelim, if_pos hcond] at h
    obtain rfl : rest = r := by simpa using h
    rw [splitDashes, if_pos hcond, beforeDelim, if_pos hcond]
  | case5 c1 c2 c3 rest hcond ih =>
    rw [afterDelim, if_neg hcond] at h
    rw [splitDashes, if_neg hcond, beforeDelim, if_neg hcond, ih h]
    rfl

/-- The metadata section computed by the parser is exactly the text after
the first delimiter occurrence: re-joining the remaining split pieces with
`"---"` restores every later delimiter occurrence verbatim. -/
theorem metadataOf_eq_afterDelim (s : List Char) : metadataOf s = afterDelim s := by
  cases h : afterDelim s with
  | none =>
    unfold metadataOf
    rw [splitDashes_of_afterDelim_none s h]
    simp
  | some r =>
    unfold metadataOf
    rw [splitDashes_of_afterDelim_some s r h]
    have hlen : 1 < (beforeDelim s :: splitDashes r).length := by
      cases hsp : splitDashes r with
      | nil => exact absurd hsp (splitDashes_ne_nil r)
      | cons a t => simp
    rw [if_pos hlen]
    simp [joinDashes_splitDashes]

theorem splitDashes_headD (s : List Char) : (splitDashes s).head?.getD [] = beforeDelim s := by
  cases h : afterDelim s with
  | none =>
    rw [splitDashes_of_afterDelim_none s h, beforeDelim_of_afterDelim_none s h]
    rfl
  | some r =>
    rw [splitDashes_of_afterDelim_some s r h]
    rfl

/-! ### Parser unfolding lemmas -/

theorem parseLarryResponse_message (s : String) (now : Nat) :
    (parseLarryResponse s now).message = (jsTrim (beforeDelim s.data)).asString := by
  cases h : metadataOf s.data with
  | none => simp [parseLarryResponse, h, splitDashes_headD]
  | some m => simp [parseLarryResponse, h, splitDashes_headD]

theorem parseLarryResponse_of_none (s : String) (now : Nat) (h : metadataOf s.data = none) :
    parseLarryResponse s now =
      { message := (jsTrim s.data).asString
        clarity := defaultClarity
        stats := defaultStats
        parkedIdeas := [] } := by
  have hb : beforeDelim s.data = s.data := by
    apply beforeDelim_of_afterDelim_none
    rw [← metadataOf_eq_afterDelim]
    exact h
  simp [parseLarryResponse, h, splitDashes_headD, hb]

theorem parseLarryResponse_of_some (s : String) (now : Nat) (m : List Char)
    (h : metadataOf s.data = some m) :
    parseLarryResponse s now =
      { message := (jsTrim (beforeDelim s.data)).asString
        clarity :=
          { percentage := (firstMatch (matchNumPct clarityLit) m).getD 0
            what := ((firstMatch (matchBracket whatLit) m).map List.asString).getD
              "Not yet clear"
            who := ((firstMatch (matchBracket whoLit) m).map List.asString).getD
              "Not yet identified"
            success := ((firstMatch (matchBracket successLit) m).map List.asString).getD
              "Not yet defined" }
        stats :=
          { questionsAsked := (firstMatch (matchNum questionsLit) m).getD 0
            parkedIdeas := (firstMatch (matchNum parkedCountLit) m).getD 0
            assumptionsChallenged := (firstMatch (matchNum challengedLit) m).getD 0 }
        parkedIdeas := extractParkedIdeas m now } := by
  simp [parseLarryResponse, h, splitDashes_headD]

/-! ### Decimal printer lemmas -/

theorem digitsVal_append_singleton (ds : List Char) (c : Char) :
    digitsVal (ds ++ [c]) = 10 * digitsVal ds + (c.toNat - 48) := by
  unfold digitsVal
  rw [List.foldl_append]
  rfl

theorem digitChar_toNat (n : Nat) (h : n < 10) : (Nat.digitChar n).toNat - 48 = n := by
  interval_cases n <;> rfl

theorem digitsVal_natToDecAux (fuel n : Nat) (h : n < fuel) :
    digitsVal (natToDecAux fuel n) = n := by
  induction fuel generalizing n with
  | zero => omega
  | succ fuel ih =>
    rw [natToDecAux]
    by_cases hn : n < 10
    · rw [if_pos hn]
      show digitsVal [Nat.digitChar n] = n
      unfold digitsVal
      simp [digitChar_toNat n hn]
    · rw [if_neg hn]
      have hdiv : n / 10 < n := Nat.div_lt_self (by omega) (by norm_num)
      rw [digitsVal_append_singleton, ih (n / 10) (by omega),
        digitChar_toNat (n % 10) (Nat.mod_lt _ (by norm_num))]
      omega

theorem natToDec_inj (m n : Nat) (h : natToDec m = natToDec n) : m = n := by
  have hm := digitsVal_natToDecAux (m + 1) m (by omega)
  have hn := digitsVal_natToDecAux (n + 1) n (by omega)
  unfold natToDec at h
  rw [← hm, ← hn, h]

/-! ### Matcher decomposition lemmas -/

theorem firstMatch_some {α : Type} (f : List Char → Option α) (s : List Char) (a : α)
    (h : firstMatch f s = some a) : ∃ pre suf, s = pre ++ suf ∧ f suf = some a := by
  induction s with
  | nil => exact ⟨[], [], rfl, h⟩
  | cons c cs ih =>
    rw [firstMatch] at h
    cases hf : f (c :: cs) with
    | some b =>
      rw [hf] at h
      obtain rfl : b = a := by simpa using h
      exact ⟨[], c :: cs, rfl, hf⟩
    | none =>
      rw [hf] at h
      obtain ⟨pre, suf, rfl, hsuf⟩ := ih h
      exact ⟨c :: pre, suf, rfl, hsuf⟩

theorem stripLit_eq_append (lit : List Char) : ∀ s r : List Char,
    stripLit lit s = some r → s = lit ++ r := by
  induction lit with
  | nil =>
    intro s r h
    have hsr : s = r := by simpa [stripLit] using h
    simp [hsr]
  | cons l ls ih =>
    intro s r h
    cases s with
    | nil => simp [stripLit] at h
    | cons c cs =>
      rw [stripLit] at h
      by_cases hc : c = l
      · rw [if_pos hc] at h
        subst hc
        rw [List.cons_append, ← ih cs r h]
      · rw [if_neg hc] at h
        exact absurd h (by simp)

theorem dropWhile_head_not (p : Char → Bool) (l : List Char) :
    l.dropWhile p = [] ∨ ∃ c cs, l.dropWhile p = c :: cs ∧ p c = false := by
  induction l with
  | nil => exact Or.inl rfl
  | cons c cs ih =>
    rw [List.dropWhile_cons]
    by_cases hc : p c = true
    · rw [if_pos hc]
      exact ih
    · rw [if_neg hc]
      exact Or.inr ⟨c, cs, rfl, by simpa using hc⟩

theorem matchParked_some (s block : List Char) (h : matchParked s = some block) :
    ∃ r, stripLit parkedMarker s = some r ∧
      block = r.takeWhile (fun c => c != '*') ∧ block ≠ [] := by
  unfold matchParked at h
  cases hs : stripLit parkedMarker s with
  | none =>
    rw [hs] at h
    exact absurd h (by simp)
  | some r =>
    rw [hs] at h
    dsimp only at h
    by_cases hemp : (r.takeWhile (fun c => c != '*')).isEmpty = true
    · rw [if_pos hemp] at h
      exact absurd h (by simp)
    · rw [if_neg hemp] at h
      obtain rfl : r.takeWhile (fun c => c != '*') = block := by simpa using h
      refine ⟨r, rfl, rfl, fun hnil => hemp ?_⟩
      rw [hnil]
      rfl

/-! ### Claim theorems for the parser -/

/-- C3: the parsed message is the trimmed text before the first `"---"`;
the scanned metadata section is exactly the text after that first delimiter
(later `"---"` occurrences preserved by the re-join); with no delimiter the
message is the whole trimmed input and every structured field is default. -/
theorem parse_split_spec (s : String) (now : Nat) :
    (parseLarryResponse s now).message = (jsTrim (beforeDelim s.data)).asString ∧
      metadataOf s.data = afterDelim s.data ∧
      (afterDelim s.data = none →
        parseLarryResponse s now =
          { message := (jsTrim s.data).asString
            clarity := defaultClarity
            stats := defaultStats
            parkedIdeas := [] }) := by
  refine ⟨parseLarryResponse_message s now, metadataOf_eq_afterDelim s.data, fun h => ?_⟩
  apply parseLarryResponse_of_none
  rw [metadataOf_eq_afterDelim]
  exact h

theorem parse_split_spec_witness :
    (parseLarryResponse "no delimiter here" 7).message =
        (jsTrim (beforeDelim ("no delimiter here" : String).data)).asString ∧
      metadataOf ("no delimiter here" : String).data =
        afterDelim ("no delimiter here" : String).data ∧
      (afterDelim ("no delimiter here" : String).data = none →
        parseLarryResponse "no delimiter here" 7 =
          { message := (jsTrim ("no delimiter here" : String).data).asString
            clarity := defaultClarity
            stats := defaultStats
            parkedIdeas := [] }) :=
  parse_split_spec "no delimiter here" 7

/-- C2: the parser is a total function by construction, and every field
whose pattern is absent from the metadata section holds its documented
default (no metadata at all yields all defaults). -/
theorem parse_defaults_spec (s : String) (now : Nat) :
    (metadataOf s.data = none →
      (parseLarryResponse s now).clarity = defaultClarity ∧
        (parseLarryResponse s now).stats = defaultStats ∧
        (parseLarryResponse s now).parkedIdeas = []) ∧
      (∀ m, metadataOf s.data = some m →
        ((firstMatch (matchNumPct clarityLit) m = none →
            (parseLarryResponse s now).clarity.percentage = 0) ∧
          (firstMatch (matchBracket whatLit) m = none →
            (parseLarryResponse s now).clarity.what = "Not yet clear") ∧
          (firstMatch (matchBracket whoLit) m = none →
            (parseLarryResponse s now).clarity.who = "Not yet identified") ∧
          (firstMatch (matchBracket successLit) m = none →
            (parseLarryResponse s now).clarity.success = "Not yet defined") ∧
          (firstMatch (matchNum questionsLit) m = none →
            (parseLarryResponse s now).stats.questionsAsked = 0) ∧
          (firstMatch (matchNum parkedCountLit) m = none →
            (parseLarryResponse s now).stats.parkedIdeas = 0) ∧
          (firstMatch (matchNum challengedLit) m = none →
            (parseLarryResponse s now).stats.assumptionsChallenged = 0) ∧
          (firstMatch matchParked m = none →
            (parseLarryResponse s now).parkedIdeas = []))) := by
  constructor
  · intro h
    rw [parseLarryResponse_of_none s now h]
    exact ⟨rfl, rfl, rfl⟩
  · intro m h
    rw [parseLarryResponse_of_some s now m h]
    refine ⟨fun hf => ?_, fun hf => ?_, fun hf => ?_, fun hf => ?_, fun hf => ?_, fun hf => ?_,
      fun hf => ?_, fun hf => ?_⟩ <;>
      simp [hf, extractParkedIdeas]

theorem parse_defaults_spec_witness :
    (metadataOf ("hello---world" : String).data = none →
      (parseLarryResponse "hello---world" 3).clarity = defaultClarity ∧
        (parseLarryResponse "hello---world" 3).stats = defaultStats ∧
        (parseLarryResponse "hello---world" 3).parkedIdeas = []) ∧
      (∀ m, metadataOf ("hello---world" : String).data = some m →
        ((firstMatch (matchNumPct clarityLit) m = none →
            (parseLarryResponse "hello---world" 3).clarity.percentage = 0) ∧
          (firstMatch (matchBracket whatLit) m = none →
            (parseLarryResponse "hello---world" 3).clarity.what = "Not yet clear") ∧
          (firstMatch (matchBracket whoLit) m = none →
            (parseLarryResponse "hello---world" 3).clarity.who = "Not yet identified") ∧
          (firstMatch (matchBracket successLit) m = none →
            (parseLarryResponse "hello---world" 3).clarity.success = "Not yet defined") ∧
          (firstMatch (matchNum questionsLit) m = none →
            (parseLarryResponse "hello---world" 3).stats.questionsAsked = 0) ∧
          (firstMatch (matchNum parkedCountLit) m = none →
            (parseLarryResponse "hello---world" 3).stats.parkedIdeas = 0) ∧
          (firstMatch (matchNum challengedLit) m = none →
            (parseLarryResponse "hello---world" 3).stats.assumptionsChallenged = 0) ∧
          (firstMatch matchParked m = none →
            (parseLarryResponse "hello---world" 3).parkedIdeas = []))) :=
  parse_defaults_spec "hello---world" 3

/-- C5 (amended): the clarity percentage is a natural number, either the
default 0 or exactly the integer extracted by the first
`Problem Clarity: <integer>%` match; no upper bound of 100 is enforced. -/
theorem clarity_percentage_amended (s : String) (now : Nat) :
    (parseLarryResponse s now).clarity.percentage = 0 ∨
      ∃ m, metadataOf s.data = some m ∧
        firstMatch (matchNumPct clarityLit) m =
          some (parseLarryResponse s now).clarity.percentage := by
  cases h : metadataOf s.data with
  | none =>
    left
    rw [parseLarryResponse_of_none s now h]
    rfl
  | some m =>
    rw [parseLarryResponse_of_some s now m h]
    cases hf : firstMatch (matchNumPct clarityLit) m with
    | none =>
      left
      simp [hf]
    | some v =>
      right
      exact ⟨m, rfl, by simp [hf]⟩

/-- C5 counterexample: a reply carrying `Problem Clarity: 250%` yields a
percentage of 250, outside the claimed 0–100 range. -/
theorem clarity_percentage_counterexample :
    (parseLarryResponse "x---Problem Clarity: 250%" 0).clarity.percentage = 250 ∧
      ¬(parseLarryResponse "x---Problem Clarity: 250%" 0).clarity.percentage ≤ 100 :=
  ⟨by decide, by decide⟩

/-- C4 (amended): the captured parked-ideas block is the non-empty maximal
asterisk-free run directly following the `**Parked Ideas:**` marker (so text
after the next `*` contributes nothing); a block containing "None" yields no
ideas; otherwise the ideas are, in order, the lines whose trimmed content
starts with `-`, where the leading `-` and following whitespace are removed
only when the `-` is the very first character of the raw line (an indented
dash is kept), and the remaining text is trimmed. -/
theorem parked_ideas_spec (s : String) (now : Nat) (m block : List Char)
    (hm : metadataOf s.data = some m) (hb : firstMatch matchParked m = some block) :
    block ≠ [] ∧
      (∀ c ∈ block, c ≠ '*') ∧
      (∃ pre post, m = pre ++ parkedMarker ++ block ++ post ∧
        (post = [] ∨ ∃ cs, post = '*' :: cs)) ∧
      (containsSub noneLit block = true → (parseLarryResponse s now).parkedIdeas = []) ∧
      (containsSub noneLit block = false →
        (parseLarryResponse s now).parkedIdeas =
          ((splitNl block).filter isDashLine).enum.map fun p =>
            { id := ("idea-".data ++ natToDec p.1).asString
              text := (jsTrim (stripDashWs p.2)).asString
              timestamp := now }) := by
  obtain ⟨pre, suf, rfl, hsuf⟩ := firstMatch_some matchParked m block hb
  obtain ⟨r, hr, hblock, hne⟩ := matchParked_some suf block hsuf
  have hsufeq : suf = parkedMarker ++ r := stripLit_eq_append parkedMarker suf r hr
  refine ⟨hne, ?_, ?_, ?_, ?_⟩
  · intro c hc
    rw [hblock] at hc
    have hp := List.mem_takeWhile_imp hc
    simpa using hp
  · refine ⟨pre, r.dropWhile (fun c => c != '*'), ?_, ?_⟩
    · rw [hsufeq, hblock]
      simp only [List.append_assoc, List.append_cancel_left_eq]
      rw [List.takeWhile_append_dropWhile]
    · rcases dropWhile_head_not (fun c => c != '*') r with h0 | ⟨c, cs, hd, hc⟩
      · exact Or.inl h0
      · right
        refine ⟨cs, ?_⟩
        rw [hd]
        have hcs : c = '*' := by simpa using hc
        rw [hcs]
  · intro hcon
    rw [parseLarryResponse_of_some s now _ hm]
    simp [extractParkedIdeas, hb, hcon]
  · intro hcon
    rw [parseLarryResponse_of_some s now _ hm]
    simp [extractParkedIdeas, hb, hcon]

/-- C4 counterexample: on an indented parked-idea line the anchored
replacement does not fire, so the dash survives into the idea text, against
the claim's unconditional "leading `-` stripped" reading. -/
theorem parked_ideas_counterexample :
    (parseLarryResponse "x---**Parked Ideas:**\n  - keep me\n" 0).parkedIdeas.map
        ParkedIdea.text = ["- keep me"] ∧
      (["- keep me"] : List String) ≠ ["keep me"] :=
  ⟨by decide, by decide⟩

theorem parked_ideas_spec_witness :
    metadataOf ("m---**Parked Ideas:**\n- A\n- B\n**Next:** x" : String).data =
        some ("**Parked Ideas:**\n- A\n- B\n**Next:** x" : String).data ∧
      firstMatch matchParked ("**Parked Ideas:**\n- A\n- B\n**Next:** x" : String).data =
        some ("\n- A\n- B\n" : String).data ∧
      (("\n- A\n- B\n" : String).data ≠ [] ∧
        (∀ c ∈ ("\n- A\n- B\n" : String).data, c ≠ '*') ∧
        (∃ pre post, ("**Parked Ideas:**\n- A\n- B\n**Next:** x" : String).data =
          pre ++ parkedMarker ++ ("\n- A\n- B\n" : String).data ++ post ∧
          (post = [] ∨ ∃ cs, post = '*' :: cs)) ∧
        (containsSub noneLit ("\n- A\n- B\n" : String).data = true →
          (parseLarryResponse "m---**Parked Ideas:**\n- A\n- B\n**Next:** x" 4).parkedIdeas =
            []) ∧
        (containsSub noneLit ("\n- A\n- B\n" : String).data = false →
          (parseLarryResponse "m---**Parked Ideas:**\n- A\n- B\n**Next:** x" 4).parkedIdeas =
            ((splitNl ("\n- A\n- B\n" : String).data).filter isDashLine).enum.map fun p =>
              { id := ("idea-".data ++ natToDec p.1).asString
                text := (jsTrim (stripDashWs p.2)).asString
                timestamp := 4 })) :=
  ⟨by decide, by decide, parked_ideas_spec _ 4 _ _ (by decide) (by decide)⟩

/-! ### Determinism and independence lemmas -/

theorem enum_map_fst_val {β : Type} (L : List β) (g : Nat → String) :
    L.enum.map (fun p => g p.1) = (List.range L.length).map g := by
  have h1 : L.enum.map (fun p => g p.1) = (L.enum.map Prod.fst).map g := by
    rw [List.map_map]
    rfl
  rw [h1, List.enum_map_fst]

theorem idea_id_inj (a b : Nat)
    (h : ("idea-".data ++ natToDec a).asString = ("idea-".data ++ natToDec b).asString) :
    a = b := by
  apply natToDec_inj
  have h2 : "idea-".data ++ natToDec a = "idea-".data ++ natToDec b := congrArg String.data h
  exact List.append_cancel_left h2

theorem extractParkedIdeas_map_id (m : List Char) (now : Nat) :
    (extractParkedIdeas m now).map ParkedIdea.id =
      (List.range (extractParkedIdeas m now).length).map
        (fun i => ("idea-".data ++ natToDec i).asString) := by
  unfold extractParkedIdeas
  cases firstMatch matchParked m with
  | none => rfl
  | some block =>
    dsimp only
    by_cases hn : containsSub noneLit block = true
    · simp only [if_pos hn]
      rfl
    · simp only [if_neg hn]
      rw [List.map_map, List.length_map, List.enum_length]
      exact enum_map_fst_val ((splitNl block).filter isDashLine)
        (fun i => ("idea-".data ++ natToDec i).asString)

theorem extractParkedIdeas_map_text_indep (m : List Char) (n₁ n₂ : Nat) :
    (extractParkedIdeas m n₁).map ParkedIdea.text =
      (extractParkedIdeas m n₂).map ParkedIdea.text := by
  unfold extractParkedIdeas
  cases firstMatch matchParked m with
  | none => rfl
  | some block =>
    dsimp only
    by_cases hn : containsSub noneLit block = true
    · simp only [if_pos hn]
    · simp only [if_neg hn]
      rw [List.map_map, List.map_map]
      rfl

theorem extractParkedIdeas_length_indep (m : List Char) (n₁ n₂ : Nat) :
    (extractParkedIdeas m n₁).length = (extractParkedIdeas m n₂).length := by
  unfold extractParkedIdeas
  cases firstMatch matchParked m with
  | none => rfl
  | some block =>
    dsimp only
    by_cases hn : containsSub noneLit block = true
    · simp only [if_pos hn]
    · simp only [if_neg hn]
      rw [List.length_map, List.length_map]

/-- C9: every structured output field is a function of the extraction of its
own pattern alone, so presence or absence of any other pattern cannot affect
it; concretely, a metadata section carrying only the `Who` pattern sets
`clarity.who` while `clarity.what`, `clarity.success` and every counter keep
their defaults. -/
theorem parse_field_independence (s : String) (now : Nat) :
    ((parseLarryResponse s now).clarity.percentage =
        ((metadataOf s.data).bind (firstMatch (matchNumPct clarityLit))).getD 0) ∧
      ((parseLarryResponse s now).clarity.what =
        (((metadataOf s.data).bind (firstMatch (matchBracket whatLit))).map
            List.asString).getD "Not yet clear") ∧
      ((parseLarryResponse s now).clarity.who =
        (((metadataOf s.data).bind (firstMatch (matchBracket whoLit))).map
            List.asString).getD "Not yet identified") ∧
      ((parseLarryResponse s now).clarity.success =
        (((metadataOf s.data).bind (firstMatch (matchBracket successLit))).map
            List.asString).getD "Not yet defined") ∧
      ((parseLarryResponse s now).stats.questionsAsked =
        ((metadataOf s.data).bind (firstMatch (matchNum questionsLit))).getD 0) ∧
      ((parseLarryResponse s now).stats.parkedIdeas =
        ((metadataOf s.data).bind (firstMatch (matchNum parkedCountLit))).getD 0) ∧
      ((parseLarryResponse s now).stats.assumptionsChallenged =
        ((metadataOf s.data).bind (firstMatch (matchNum challengedLit))).getD 0) ∧
      ((parseLarryResponse s now).parkedIdeas =
        ((metadataOf s.data).map fun m => extractParkedIdeas m now).getD []) ∧
      (parseLarryResponse "---Who has this problem: [small business owners]" 9).clarity.who =
        "small business owners" ∧
      (parseLarryResponse "---Who has this problem: [small business owners]" 9).clarity.what =
        "Not yet clear" ∧
      (parseLarryResponse "---Who has this problem: [small business owners]" 9).clarity.success =
        "Not yet defined" ∧
      (parseLarryResponse "---Who has this problem: [small business owners]" 9).stats =
        defaultStats := by
  cases h : metadataOf s.data with
  | none =>
    rw [parseLarryResponse_of_none s now h]
    exact ⟨rfl, rfl, rfl, rfl, rfl, rfl, rfl, rfl, by decide, by decide, by decide, by decide⟩
  | some m =>
    rw [parseLarryResponse_of_some s now m h]
    exact ⟨rfl, rfl, rfl, rfl, rfl, rfl, rfl, rfl, by decide, by decide, by decide, by decide⟩

/-- C10: two parses of the same input agree on everything except possibly
the parked-idea timestamps; the ids are the deterministic strings
`idea-<position>`, pairwise distinct within one parse and identical across
parses rather than globally fresh. -/
theorem parse_deterministic_ids (s : String) (n₁ n₂ : Nat) :
    (parseLarryResponse s n₁).message = (parseLarryResponse s n₂).message ∧
      (parseLarryResponse s n₁).clarity = (parseLarryResponse s n₂).clarity ∧
      (parseLarryResponse s n₁).stats = (parseLarryResponse s n₂).stats ∧
      (parseLarryResponse s n₁).parkedIdeas.length =
        (parseLarryResponse s n₂).parkedIdeas.length ∧
      (parseLarryResponse s n₁).parkedIdeas.map ParkedIdea.text =
        (parseLarryResponse s n₂).parkedIdeas.map ParkedIdea.text ∧
      (parseLarryResponse s n₁).parkedIdeas.map ParkedIdea.id =
        (parseLarryResponse s n₂).parkedIdeas.map ParkedIdea.id ∧
      (parseLarryResponse s n₁).parkedIdeas.map ParkedIdea.id =
        (List.range (parseLarryResponse s n₁).parkedIdeas.length).map
          (fun i => ("idea-".data ++ natToDec i).asString) ∧
      ((parseLarryResponse s n₁).parkedIdeas.map ParkedIdea.id).Nodup := by
  have hid : ∀ n : Nat, (parseLarryResponse s n).parkedIdeas.map ParkedIdea.id =
      (List.range (parseLarryResponse s n).parkedIdeas.length).map
        (fun i => ("idea-".data ++ natToDec i).asString) := by
    intro n
    cases h : metadataOf s.data with
    | none =>
      rw [parseLarryResponse_of_none s n h]
      rfl
    | some m =>
      rw [parseLarryResponse_of_some s n m h]
      exact extractParkedIdeas_map_id m n
  have hlen : (parseLarryResponse s n₁).parkedIdeas.length =
      (parseLarryResponse s n₂).parkedIdeas.length := by
    cases h : metadataOf s.data with
    | none => rw [parseLarryResponse_of_none s n₁ h, parseLarryResponse_of_none s n₂ h]
    | some m =>
      rw [parseLarryResponse_of_some s n₁ m h, parseLarryResponse_of_some s n₂ m h]
      exact extractParkedIdeas_length_indep m n₁ n₂
  refine ⟨?_, ?_, ?_, hlen, ?_, ?_, hid n₁, ?_⟩
  · rw [parseLarryResponse_message, parseLarryResponse_message]
  · cases h : metadataOf s.data with
    | none => rw [parseLarryResponse_of_none s n₁ h, parseLarryResponse_of_none s n₂ h]
    | some m => rw [parseLarryResponse_of_some s n₁ m h, parseLarryResponse_of_some s n₂ m h]
  · cases h : metadataOf s.data with
    | none => rw [parseLarryResponse_of_none s n₁ h, parseLarryResponse_of_none s n₂ h]
    | some m => rw [parseLarryResponse_of_some s n₁ m h, parseLarryResponse_of_some s n₂ m h]
  · cases h : metadataOf s.data with
    | none => rw [parseLarryResponse_of_none s n₁ h, parseLarryResponse_of_none s n₂ h]
    | some m =>
      rw [parseLarryResponse_of_some s n₁ m h, parseLarryResponse_of_some s n₂ m h]
      exact extractParkedIdeas_map_text_indep m n₁ n₂
  · rw [hid n₁, hid n₂, hlen]
  · rw [hid n₁]
    exact List.Nodup.map (fun a b hab => idea_id_inj a b hab) (List.nodup_range _)
